import Mathlib

/-!
Formalisation of the `backoff` Go package (matthewpi/backoff): an
exponential-backoff controller (`backoff.go`) over a pluggable timer
(`timer.go`).

Modelling conventions:
* `time.Duration` (an int64 count of nanoseconds) is modelled as `ℤ`.
* `uint` counters are modelled as `ℕ`.
* `float64` arithmetic in `Backoff.duration` is modelled exactly over `ℚ`:
  `math.Pow(f, n)` at a natural exponent is `f ^ n`, and the float-to-int64
  conversion `time.Duration(durF)` (truncation toward zero) is `truncQ`.
* Channels and real time are not modelled quantitatively; the select race in
  `Next` is driven by two booleans: `ctxDone` (the context is already
  cancelled) and `timerFirst` (the timer case wins the select in the only
  racy situation, namely when both cases are ready).
-/

/-- Exact value of the Go constant `maxInt64 = float64(math.MaxInt64 - 512)`:
rounding the integer `2 ^ 63 - 513` to the nearest float64 (whose spacing is
`1024` in that range) yields `2 ^ 63 - 1024`. -/
def maxInt64 : ℚ := 2 ^ 63 - 1024

/-- Conversion of a float to an integer type in Go truncates toward zero. -/
def truncQ (q : ℚ) : ℤ := if 0 ≤ q then q.floor else q.ceil

/-- Modelled from the spec: the Go standard library runtime timer that backs
`realTimer` (`time.Timer`, which is not part of this repository). `active`
records whether a fire is still pending. -/
structure GoTimer where
  active : Bool
deriving DecidableEq

/-- Modelled from the spec: `time.Timer.Stop` reports whether the call
prevented the pending fire (false when the timer already expired or was
stopped), matching the contract quoted in the `Timer` interface comments,
and deactivates the timer. -/
def GoTimer.Stop (g : GoTimer) : Bool × GoTimer := (g.active, ⟨false⟩)

/-- `realTimer` wraps an optional runtime timer (`nil` before the first
`Start`). -/
structure RealTimer where
  timer : Option GoTimer
deriving DecidableEq

/-- `NewRealTimer` returns a timer whose inner `time.Timer` is still `nil`. -/
def NewRealTimer : RealTimer := ⟨none⟩

/-- `realTimer.Start`: create the runtime timer on first use
(`time.NewTimer`), otherwise re-arm it (`Reset`); either way a fire becomes
pending. The duration argument is kept for shape; time is not modelled
quantitatively. -/
def RealTimer.Start (t : RealTimer) (_d : ℤ) : RealTimer :=
  match t.timer with
  | none => { timer := some { active := true } }
  | some _ => { timer := some { active := true } }

/-- `realTimer.Stop`: returns true when the inner timer was never created,
otherwise defers to the runtime timer. -/
def RealTimer.Stop (t : RealTimer) : Bool × RealTimer :=
  match t.timer with
  | none => (true, t)
  | some g => ((g.Stop).1, { timer := some (g.Stop).2 })

/-- Environment action (not a method of the source): the pending fire of the
runtime timer elapses and its value is delivered on the channel. -/
def RealTimer.fire (t : RealTimer) : RealTimer :=
  match t.timer with
  | none => t
  | some _ => { timer := some { active := false } }

/-- The `Backoff` struct of `backoff.go`. -/
structure Backoff where
  n : ℕ
  MaxAttempts : ℕ
  Factor : ℚ
  Min : ℤ
  Max : ℤ
  Timer : RealTimer
deriving DecidableEq

/-- `New` returns a new `Backoff` instance (attempt counter 0, real timer). -/
def Backoff.new (maxAttempts : ℕ) (factor : ℚ) (mn mx : ℤ) : Backoff :=
  { n := 0, MaxAttempts := maxAttempts, Factor := factor, Min := mn, Max := mx,
    Timer := NewRealTimer }

/-- `Attempt` returns the current attempt. -/
def Backoff.Attempt (b : Backoff) : ℕ := b.n

/-- `duration` returns the delay to wait before running the given attempt. -/
def Backoff.duration (b : Backoff) (attempt : ℕ) : ℤ :=
  if attempt = 0 then 0
  else
    let factor : ℚ := b.Factor ^ attempt
    let durF : ℚ := (b.Min : ℚ) * factor
    if durF > maxInt64 then b.Max
    else
      let dur : ℤ := truncQ durF
      if dur < b.Min then b.Min
      else if dur > b.Max then b.Max
      else dur

/-- `Duration` returns the delay for the current attempt. -/
def Backoff.Duration (b : Backoff) : ℤ := b.duration b.n

/-- `Next`: returns whether to proceed, together with the updated state.
`ctxDone` says whether the supplied context is cancelled; `timerFirst`
resolves the select race in favour of the timer when both cases are ready
(with a real wall-clock timer and a nonzero delay the context case wins
whenever the context is already done). -/
def Backoff.Next (b : Backoff) (ctxDone timerFirst : Bool) : Bool × Backoff :=
  if b.MaxAttempts ≠ 0 ∧ b.n ≥ b.MaxAttempts then (false, b)
  else
    let d := b.Duration
    let b' : Backoff := { b with n := b.n + 1 }
    if d = 0 then
      (!ctxDone, b')
    else
      let started : Backoff := { b' with Timer := b'.Timer.Start d }
      if ctxDone && !timerFirst then
        (false, { started with Timer := (started.Timer.Stop).2 })
      else
        (true, { started with Timer := started.Timer.fire })

/-- `Reset` resets the backoff to attempt 0 so it can be re-used. -/
def Backoff.Reset (b : Backoff) : Backoff := { b with n := 0 }

/-- Iterated `Next` with a never-cancelled context and a firing timer: the
state after `k` calls of the retry loop. -/
def Backoff.nextLoop (b : Backoff) : ℕ → Backoff
  | 0 => b
  | k + 1 => ((b.nextLoop k).Next false true).2

/-- The duration computation as the specification words it: zero at attempt
0; otherwise the float product `min * factor ^ attempt` is first compared
against the largest safely representable value minus a safety margin,
overflowing directly to `max`; otherwise the converted integer duration is
raised to `min` when below it and lowered to `max` when above it. -/
def durationSpec (b : Backoff) (attempt : ℕ) : ℤ :=
  if attempt = 0 then 0
  else
    let product : ℚ := (b.Min : ℚ) * b.Factor ^ attempt
    if product > maxInt64 then b.Max
    else
      let converted : ℤ := truncQ product
      if converted < b.Min then b.Min
      else if converted > b.Max then b.Max
      else converted

-- Batteries marks the arithmetic on `Rat` irreducible, which blocks `decide`
-- on concrete inputs; restore kernel-style reducibility for this development.
attribute [local semireducible] Rat.mul Rat.add Rat.sub Rat.inv

lemma ratFloor_eq (q : ℚ) : q.floor = ⌊q⌋ := by
  rw [Rat.floor_def', Rat.floor_def]

lemma truncQ_eq_floor {q : ℚ} (h : 0 ≤ q) : truncQ q = ⌊q⌋ := by
  unfold truncQ
  rw [if_pos h, ratFloor_eq]

lemma truncQ_mono {p q : ℚ} (hp : 0 ≤ p) (hpq : p ≤ q) : truncQ p ≤ truncQ q := by
  rw [truncQ_eq_floor hp, truncQ_eq_floor (le_trans hp hpq)]
  exact Int.floor_le_floor hpq

lemma truncQ_intCast (n : ℤ) : truncQ (n : ℚ) = n := by
  unfold truncQ
  split_ifs with h
  · rw [ratFloor_eq, Int.floor_intCast]
  · show (n : ℚ).ceil = n
    unfold Rat.ceil
    rw [if_pos (Rat.den_intCast n), Rat.num_intCast]

lemma duration_pos_eq (b : Backoff) {a : ℕ} (h : a ≠ 0) :
    b.duration a =
      if (b.Min : ℚ) * b.Factor ^ a > maxInt64 then b.Max
      else
        if truncQ ((b.Min : ℚ) * b.Factor ^ a) < b.Min then b.Min
        else if truncQ ((b.Min : ℚ) * b.Factor ^ a) > b.Max then b.Max
        else truncQ ((b.Min : ℚ) * b.Factor ^ a) := by
  simp only [Backoff.duration, if_neg h]

lemma min_le_duration_pos (b : Backoff) (hmm : b.Min ≤ b.Max) {a : ℕ} (h : a ≠ 0) :
    b.Min ≤ b.duration a := by
  rw [duration_pos_eq b h]
  split_ifs <;> omega

lemma duration_pos_le_max (b : Backoff) (hmm : b.Min ≤ b.Max) {a : ℕ} (h : a ≠ 0) :
    b.duration a ≤ b.Max := by
  rw [duration_pos_eq b h]
  split_ifs <;> omega

lemma Next_exhausted (b : Backoff) (h1 : b.MaxAttempts ≠ 0) (h2 : b.n ≥ b.MaxAttempts)
    (c t : Bool) : b.Next c t = (false, b) := by
  simp only [Backoff.Next, if_pos (And.intro h1 h2)]

lemma Next_snd_n (b : Backoff)
    (h : ¬(b.MaxAttempts ≠ 0 ∧ b.n ≥ b.MaxAttempts)) (c t : Bool) :
    ((b.Next c t).2).n = b.n + 1 := by
  simp only [Backoff.Next, if_neg h]
  split_ifs <;> rfl

lemma Next_fst_true (b : Backoff)
    (h : ¬(b.MaxAttempts ≠ 0 ∧ b.n ≥ b.MaxAttempts)) (t : Bool) :
    (b.Next false t).1 = true := by
  simp only [Backoff.Next, if_neg h]
  split_ifs with h1 h2 <;> simp_all

lemma Next_fields (b : Backoff) (c t : Bool) :
    ((b.Next c t).2).MaxAttempts = b.MaxAttempts ∧
    ((b.Next c t).2).Factor = b.Factor ∧
    ((b.Next c t).2).Min = b.Min ∧ ((b.Next c t).2).Max = b.Max := by
  simp only [Backoff.Next]
  split_ifs <;> exact ⟨rfl, rfl, rfl, rfl⟩

lemma nextLoop_state (N : ℕ) (f : ℚ) (mn mx : ℤ) :
    ∀ i, i ≤ N →
      ((Backoff.new N f mn mx).nextLoop i).n = i ∧
      ((Backoff.new N f mn mx).nextLoop i).MaxAttempts = N := by
  intro i
  induction i with
  | zero => exact fun _ => ⟨rfl, rfl⟩
  | succ k ih =>
    intro hk
    obtain ⟨hn, hma⟩ := ih (Nat.le_of_succ_le hk)
    have hguard : ¬(((Backoff.new N f mn mx).nextLoop k).MaxAttempts ≠ 0 ∧
        ((Backoff.new N f mn mx).nextLoop k).n ≥
          ((Backoff.new N f mn mx).nextLoop k).MaxAttempts) := by
      omega
    simp only [Backoff.nextLoop]
    constructor
    · rw [Next_snd_n _ hguard, hn]
    · rw [(Next_fields _ false true).1, hma]

/-- C1: for every configuration and every attempt counter value, `duration`
returns 0 at attempt 0, and otherwise follows exactly the clamp the
specification describes: the exact float product `Min * Factor ^ attempt` is
first compared against the largest safely representable value minus the
safety margin (returning `Max` directly when it exceeds it), and otherwise
the converted integer duration is raised to `Min` when below it and lowered
to `Max` when above it; `Duration` evaluates this at the current counter. -/
theorem duration_matches_spec (b : Backoff) (attempt : ℕ) :
    b.duration attempt = durationSpec b attempt ∧ b.Duration = durationSpec b b.n :=
  ⟨rfl, rfl⟩

/-- C2 counterexample: the claim quantifies over arbitrary non-negative
`Min` and `Max`; with `Min = 3`, `Max = 1` (minimum above maximum) and
`Factor = 2`, the value at attempt 1 is `Max = 1`, strictly below `Min`, so
`Min ≤ duration(attempt)` fails as stated. -/
theorem duration_within_bounds_counterexample :
    (Backoff.new 0 2 3 1).duration 1 < (Backoff.new 0 2 3 1).Min := by decide

/-- C2 (amended): whenever `Min ≤ Max`, every attempt ≥ 1 yields a duration
inside `[Min, Max]`, for every factor (however large — overflow cannot
escape the bound — or below 1). -/
theorem duration_within_bounds (b : Backoff) (hmm : b.Min ≤ b.Max)
    (attempt : ℕ) (h : 1 ≤ attempt) :
    b.Min ≤ b.duration attempt ∧ b.duration attempt ≤ b.Max :=
  ⟨min_le_duration_pos b hmm (by omega), duration_pos_le_max b hmm (by omega)⟩

/-- C2 witness: the amended theorem applied to `New(3, 2, 1, 5)` at
attempt 2. -/
theorem duration_within_bounds_witness :
    (Backoff.new 3 2 1 5).Min ≤ (Backoff.new 3 2 1 5).Max ∧
    ((Backoff.new 3 2 1 5).Min ≤ (Backoff.new 3 2 1 5).duration 2 ∧
      (Backoff.new 3 2 1 5).duration 2 ≤ (Backoff.new 3 2 1 5).Max) :=
  ⟨by decide, duration_within_bounds (Backoff.new 3 2 1 5) (by decide) 2 (by decide)⟩

/-- C4: when `MaxAttempts ≠ 0` and the attempt counter has reached it,
`Next` returns false with the state (counter and timer included) unchanged,
for every cancellation status and every race outcome — in particular it
never consults the context or the timer, so no wait occurs. -/
theorem next_exhausted_unchanged (b : Backoff) (h1 : b.MaxAttempts ≠ 0)
    (h2 : b.n ≥ b.MaxAttempts) (c t : Bool) : b.Next c t = (false, b) :=
  Next_exhausted b h1 h2 c t

/-- C4 witness: a controller at its limit of 2 attempts. -/
theorem next_exhausted_unchanged_witness :
    ({ n := 2, MaxAttempts := 2, Factor := 2, Min := 1, Max := 5,
       Timer := NewRealTimer } : Backoff).Next true false =
      (false, { n := 2, MaxAttempts := 2, Factor := 2, Min := 1, Max := 5,
                Timer := NewRealTimer }) :=
  next_exhausted_unchanged _ (by decide) (by decide) true false

/-- C5: when the controller is not at its limit, `Next` increments the
attempt counter by exactly 1 for every cancellation status and race outcome;
in particular a cancelled attempt still counts. -/
theorem next_increments_attempt (b : Backoff)
    (h : ¬(b.MaxAttempts ≠ 0 ∧ b.n ≥ b.MaxAttempts)) (c t : Bool) :
    ((b.Next c t).2).n = b.n + 1 :=
  Next_snd_n b h c t

/-- C5 witness: a fresh `New(3, 2, 1, 5)` controller driven with an already
cancelled context still increments the counter to 1. -/
theorem next_increments_attempt_witness :
    (((Backoff.new 3 2 1 5).Next true false).2).n = (Backoff.new 3 2 1 5).n + 1 :=
  next_increments_attempt (Backoff.new 3 2 1 5) (by decide) true false

/-- C6: when the controller is not at its limit and the computed duration
for the current attempt is 0, `Next` bypasses the timer entirely: its result
is exactly the non-blocking poll of the cancellation signal (false when
already cancelled, true otherwise, independent of the race parameter), the
timer state is untouched, and the counter still advances. -/
theorem next_zero_duration (b : Backoff)
    (h1 : ¬(b.MaxAttempts ≠ 0 ∧ b.n ≥ b.MaxAttempts)) (h2 : b.Duration = 0)
    (c t : Bool) :
    (b.Next c t).1 = !c ∧ ((b.Next c t).2).Timer = b.Timer ∧
      ((b.Next c t).2).n = b.n + 1 := by
  have hstep : b.Next c t = (!c, { b with n := b.n + 1 }) := by
    simp only [Backoff.Next, if_neg h1, h2]
    simp
  rw [hstep]
  exact ⟨rfl, rfl, rfl⟩

/-- C6 witness: a fresh unlimited controller (duration 0 at attempt 0) with
an already cancelled context returns false without touching the timer. -/
theorem next_zero_duration_witness :
    ((Backoff.new 0 2 1 5).Next true true).1 = !true ∧
    (((Backoff.new 0 2 1 5).Next true true).2).Timer = (Backoff.new 0 2 1 5).Timer ∧
    (((Backoff.new 0 2 1 5).Next true true).2).n = (Backoff.new 0 2 1 5).n + 1 :=
  next_zero_duration (Backoff.new 0 2 1 5) (by decide) (by decide) true true

/-- C3: a freshly constructed controller with limit `N > 0`, driven by a
loop with a never-cancelled context and a timer that always fires, yields
exactly `N` true returns, then a false return, and the attempt counter reads
`N` once the loop has ended. -/
theorem nextLoop_exact (N : ℕ) (hN : 0 < N) (f : ℚ) (mn mx : ℤ) :
    (∀ i, i < N → (((Backoff.new N f mn mx).nextLoop i).Next false true).1 = true) ∧
    (((Backoff.new N f mn mx).nextLoop N).Next false true).1 = false ∧
    ((Backoff.new N f mn mx).nextLoop (N + 1)).Attempt = N := by
  refine ⟨?_, ?_, ?_⟩
  · intro i hi
    obtain ⟨hn, hma⟩ := nextLoop_state N f mn mx i (le_of_lt hi)
    exact Next_fst_true _ (by omega) true
  · obtain ⟨hn, hma⟩ := nextLoop_state N f mn mx N le_rfl
    rw [Next_exhausted _ (by omega) (by omega) false true]
  · obtain ⟨hn, hma⟩ := nextLoop_state N f mn mx N le_rfl
    show ((((Backoff.new N f mn mx).nextLoop N).Next false true).2).Attempt = N
    rw [Next_exhausted _ (by omega) (by omega) false true]
    exact hn

/-- C3 witness: with limit 2 and configuration `New(2, 2, 1, 5)` the loop
returns true twice, then false, leaving the counter at 2. -/
theorem nextLoop_exact_witness :
    0 < 2 ∧
    ((∀ i, i < 2 → (((Backoff.new 2 2 1 5).nextLoop i).Next false true).1 = true) ∧
      (((Backoff.new 2 2 1 5).nextLoop 2).Next false true).1 = false ∧
      ((Backoff.new 2 2 1 5).nextLoop (2 + 1)).Attempt = 2) :=
  ⟨by decide, nextLoop_exact 2 (by decide) 2 1 5⟩

/-- C7: with `Factor > 1` and a well-ordered non-negative configuration
(`0 ≤ Min ≤ Max`, as the data model requires of durations), the function
`attempt ↦ duration(attempt)` is non-decreasing on attempts ≥ 1. -/
theorem duration_monotone (b : Backoff) (hF : 1 < b.Factor) (h0 : 0 ≤ b.Min)
    (hmm : b.Min ≤ b.Max) (a c : ℕ) (ha : 1 ≤ a) (hac : a ≤ c) :
    b.duration a ≤ b.duration c := by
  have ha0 : a ≠ 0 := by omega
  have hc0 : c ≠ 0 := by omega
  have hQ0 : (0 : ℚ) ≤ (b.Min : ℚ) := by exact_mod_cast h0
  have hF0 : (0 : ℚ) ≤ b.Factor := le_of_lt (lt_trans zero_lt_one hF)
  have hpow : b.Factor ^ a ≤ b.Factor ^ c := pow_le_pow_right₀ (le_of_lt hF) hac
  have hprod : (b.Min : ℚ) * b.Factor ^ a ≤ (b.Min : ℚ) * b.Factor ^ c :=
    mul_le_mul_of_nonneg_left hpow hQ0
  have hnn : (0 : ℚ) ≤ (b.Min : ℚ) * b.Factor ^ a := mul_nonneg hQ0 (pow_nonneg hF0 a)
  rw [duration_pos_eq b ha0, duration_pos_eq b hc0]
  by_cases hovc : (b.Min : ℚ) * b.Factor ^ c > maxInt64
  · rw [if_pos hovc]
    split_ifs <;> omega
  · have hova : ¬((b.Min : ℚ) * b.Factor ^ a > maxInt64) := by
      push_neg at hovc ⊢
      exact le_trans hprod hovc
    rw [if_neg hovc, if_neg hova]
    have htr : truncQ ((b.Min : ℚ) * b.Factor ^ a) ≤ truncQ ((b.Min : ℚ) * b.Factor ^ c) :=
      truncQ_mono hnn hprod
    split_ifs <;> omega

/-- C7 witness: `New(3, 2, 1, 5)` at attempts 1 ≤ 3. -/
theorem duration_monotone_witness :
    (Backoff.new 3 2 1 5).duration 1 ≤ (Backoff.new 3 2 1 5).duration 3 :=
  duration_monotone (Backoff.new 3 2 1 5) (by decide) (by decide) (by decide)
    1 3 (by decide) (by decide)

/-- C8 counterexample: with `New(3, 2, 1, 5)` the delay for the first retry
is `Min * Factor = 2`, not `Min = 1`: the claimed identity
`duration(1) = min_delay` fails. -/
theorem duration_first_retry_counterexample :
    (Backoff.new 3 2 1 5).duration 1 ≠ (Backoff.new 3 2 1 5).Min := by decide

/-- C8 (amended): the delay used on the first retry (attempt 1) is `Min`
scaled once by `Factor`, truncated and clamped into `[Min, Max]`; it equals
`Min` itself in the `Factor = 1` case (given `Min ≤ Max` and no overflow). -/
theorem duration_first_retry (b : Backoff) (hmm : b.Min ≤ b.Max)
    (hov : ¬((b.Min : ℚ) * b.Factor > maxInt64)) :
    (b.duration 1 =
      if truncQ ((b.Min : ℚ) * b.Factor) < b.Min then b.Min
      else if truncQ ((b.Min : ℚ) * b.Factor) > b.Max then b.Max
      else truncQ ((b.Min : ℚ) * b.Factor)) ∧
    (b.Factor = 1 → b.duration 1 = b.Min) := by
  constructor
  · rw [duration_pos_eq b one_ne_zero, pow_one, if_neg hov]
  · intro hf
    rw [hf] at hov
    rw [mul_one] at hov
    rw [duration_pos_eq b one_ne_zero, pow_one, hf, mul_one, if_neg hov,
      truncQ_intCast]
    rw [if_neg (lt_irrefl b.Min), if_neg (not_lt.mpr hmm)]

/-- C8 witness: with `Factor = 1`, `Min = 1 ≤ Max = 5`, the first retry
delay equals `Min`. -/
theorem duration_first_retry_witness :
    (Backoff.new 3 1 1 5).duration 1 = (Backoff.new 3 1 1 5).Min :=
  (duration_first_retry (Backoff.new 3 1 1 5) (by decide) (by decide)).2 rfl

/-- C9 counterexample: calling `Stop` on a real timer on which `Start` has
never been called returns true, not false; the package unit test asserts
exactly this behaviour. -/
theorem stop_unstarted_counterexample :
    (RealTimer.Stop NewRealTimer).1 = true ∧ (RealTimer.Stop NewRealTimer).1 ≠ false := by
  decide

/-- C9 (amended): `Stop` returns true exactly when the timer was never
started or it prevented a still-pending fire, and false when the runtime
timer had already fired or been stopped; afterwards no fire is pending. -/
theorem stop_result_spec (t : RealTimer) :
    ((RealTimer.Stop t).1 = true ↔
      (t.timer = none ∨ t.timer = some { active := true })) ∧
    ((RealTimer.Stop t).2).timer ≠ some { active := true } := by
  obtain ⟨tm⟩ := t
  rcases tm with _ | g
  · decide
  · obtain ⟨a⟩ := g
    cases a
    · decide
    · decide

/-- C10: the invariant `attempt ≤ MaxAttempts` (for `MaxAttempts ≠ 0`) holds
at construction, is preserved by `Next` for every cancellation status and
race outcome, and `Reset` returns the counter to 0 while leaving the limit
alone; `Attempt` and `Duration` are pure and mutate nothing. -/
theorem attempt_le_maxAttempts (b : Backoff) (c t : Bool) (ma : ℕ) (f : ℚ)
    (mn mx : ℤ) (h1 : b.MaxAttempts ≠ 0) (h2 : b.n ≤ b.MaxAttempts) :
    (Backoff.new ma f mn mx).n = 0 ∧
    ((b.Next c t).2).n ≤ ((b.Next c t).2).MaxAttempts ∧
    (b.Reset).n = 0 ∧ (b.Reset).MaxAttempts = b.MaxAttempts := by
  refine ⟨rfl, ?_, rfl, rfl⟩
  by_cases hg : b.n ≥ b.MaxAttempts
  · rw [Next_exhausted b h1 hg c t]
    exact h2
  · have h3 : ¬(b.MaxAttempts ≠ 0 ∧ b.n ≥ b.MaxAttempts) := fun hc => hg hc.2
    rw [Next_snd_n b h3 c t, (Next_fields b c t).1]
    omega

/-- C10 witness: a controller one attempt below its limit stays within it. -/
theorem attempt_le_maxAttempts_witness :
    (Backoff.new 4 2 1 5).n = 0 ∧
    ((({ n := 1, MaxAttempts := 2, Factor := 2, Min := 1, Max := 5,
         Timer := NewRealTimer } : Backoff).Next false true).2).n ≤
      ((({ n := 1, MaxAttempts := 2, Factor := 2, Min := 1, Max := 5,
           Timer := NewRealTimer } : Backoff).Next false true).2).MaxAttempts ∧
    (({ n := 1, MaxAttempts := 2, Factor := 2, Min := 1, Max := 5,
        Timer := NewRealTimer } : Backoff).Reset).n = 0 ∧
    (({ n := 1, MaxAttempts := 2, Factor := 2, Min := 1, Max := 5,
        Timer := NewRealTimer } : Backoff).Reset).MaxAttempts =
      ({ n := 1, MaxAttempts := 2, Factor := 2, Min := 1, Max := 5,
         Timer := NewRealTimer } : Backoff).MaxAttempts :=
  attempt_le_maxAttempts
    { n := 1, MaxAttempts := 2, Factor := 2, Min := 1, Max := 5,
      Timer := NewRealTimer } false true 4 2 1 5 (by decide) (by decide)
